import Mathlib

/-!
Verification of the model-usage ledger implemented in
`src/shared/model-tracking.ts` of the cline-architect repository.

The TypeScript classes `ModelTracker` and `ConversationState` are embedded
as pure Lean structures together with state-passing functions.  JavaScript
numbers holding token counts and timestamps are modelled as `Nat`, monetary
cost as `ℚ`; optional fields are `Option`s.  JavaScript truthiness matters
at three places of the source and is modelled precisely:
`stats.timestamp || timestamp` (a `0` timestamp falls back),
`if (stats.id)` (an empty-string id skips deduplication), and
`if (!lastChange.endTs)` / `!change.endTs` (an `endTs` of `0` counts as
absent).  `Set<string>` is an insertion-ordered list without duplicates,
and the `Record<string, ...>` returned by `getModelStats` is an
insertion-ordered association list with overwrite-on-existing-key,
exactly the behaviour of a JavaScript object literal.
-/

namespace ClineArchitect

/-- `ModelUsageStats` (model-tracking.ts lines 7-13): token counts, optional
cache counters, and cost for one accounting period or for the whole task. -/
structure ModelUsageStats where
  tokensIn : Nat
  tokensOut : Nat
  cacheWrites : Option Nat
  cacheReads : Option Nat
  cost : ℚ
deriving DecidableEq, Repr

/-- `ModelChange` (lines 18-24): one model-usage period. -/
structure ModelChange where
  modelId : String
  modelProvider : String
  startTs : Nat
  endTs : Option Nat
  usage : ModelUsageStats
deriving DecidableEq, Repr

/-- `Partial<ModelUsageStats>`: the type of `currentGenerationStats`
(line 114).  The source only ever resets this field to `{}`. -/
structure GenStats where
  tokensIn : Option Nat := none
  tokensOut : Option Nat := none
  cacheWrites : Option Nat := none
  cacheReads : Option Nat := none
  cost : Option ℚ := none
deriving DecidableEq, Repr

/-- The argument type of `updateUsageStats` (line 151):
`Partial<ModelUsageStats & { timestamp?: number } & OpenRouterStats>`.
A report with `total_cost` and `model` both present is a delayed
(OpenRouter) report; otherwise it is an immediate report. -/
structure UsageReport where
  tokensIn : Option Nat := none
  tokensOut : Option Nat := none
  cacheWrites : Option Nat := none
  cacheReads : Option Nat := none
  cost : Option ℚ := none
  timestamp : Option Nat := none
  id : Option String := none
  model : Option String := none
  total_cost : Option ℚ := none
  tokens_prompt : Option Nat := none
  tokens_completion : Option Nat := none
  created_at : Option String := none
deriving DecidableEq, Repr

/-- The mutable state of class `ModelTracker` (lines 105-115). -/
structure ModelTracker where
  changes : List ModelChange
  taskTotals : ModelUsageStats
  currentGenerationStats : GenStats
  processedRequests : List String
deriving DecidableEq, Repr

/-- The all-zero usage record used by `addChange` (lines 334-340). -/
def zeroUsage : ModelUsageStats := ⟨0, 0, some 0, some 0, 0⟩

/-- `currentGenerationStats` after `resetCurrentGenerationStats` (line 142). -/
def emptyGen : GenStats := ⟨none, none, none, none, none⟩

/-- `calculateTaskTotals` (lines 125-139): reduce over the changes. -/
def calculateTaskTotals (changes : List ModelChange) : ModelUsageStats :=
  changes.foldl (fun totals change =>
    ⟨totals.tokensIn + change.usage.tokensIn,
     totals.tokensOut + change.usage.tokensOut,
     some (totals.cacheWrites.getD 0 + change.usage.cacheWrites.getD 0),
     some (totals.cacheReads.getD 0 + change.usage.cacheReads.getD 0),
     totals.cost + change.usage.cost⟩)
    ⟨0, 0, some 0, some 0, 0⟩

/-- `new ModelTracker()` with no initial changes (lines 106-115). -/
def ModelTracker.new : ModelTracker := ⟨[], ⟨0, 0, some 0, some 0, 0⟩, emptyGen, []⟩

/-- `new ModelTracker(initialChanges)` (lines 117-123). -/
def ModelTracker.ofChanges (initialChanges : List ModelChange) : ModelTracker :=
  ⟨initialChanges, calculateTaskTotals initialChanges, emptyGen, []⟩

/-- `stats.timestamp || timestamp` (line 152): the effective request start
time; a missing or zero (falsy) `timestamp` field falls back to the call
argument. -/
def effectiveTs (stats : UsageReport) (timestamp : Nat) : Nat :=
  match stats.timestamp with
  | some t => if t = 0 then timestamp else t
  | none => timestamp

/-- `change.startTs <= requestStartTime && (!change.endTs || change.endTs >
requestStartTime)` (lines 164-165): whether a request time belongs to a
period.  An `endTs` of `0` is falsy, so `!change.endTs` is true for it. -/
def belongsTo (change : ModelChange) (t : Nat) : Bool :=
  decide (change.startTs ≤ t) &&
    (match change.endTs with
     | none => true
     | some e => decide (e = 0) || decide (t < e))

/-- The `${change.modelProvider}/${change.modelId}` key (lines 170, 286). -/
def modelKey (change : ModelChange) : String :=
  change.modelProvider ++ "/" ++ change.modelId

/-- JavaScript `String.prototype.endsWith`, written on the character list
(extensionally the same as `String.endsWith`) so that concrete instances
evaluate by kernel reduction. -/
def strEndsWith (s suffix : String) : Bool :=
  suffix.data.isSuffixOf s.data

/-- The predicate of the `find` on lines 163-175: time membership, plus a
suffix match on the model label when `stats.model` is present and truthy. -/
def reportMatches (stats : UsageReport) (t : Nat) (change : ModelChange) : Bool :=
  match stats.model with
  | some m =>
      if m = "" then belongsTo change t
      else belongsTo change t && strEndsWith (modelKey change) m
  | none => belongsTo change t

/-- `stats.id && this.processedRequests.has(stats.id)` (line 155): the
empty string is falsy, so an empty id is never looked up. -/
def dedupHit (reqs : List String) (id : Option String) : Bool :=
  match id with
  | some r => if r = "" then false else reqs.contains r
  | none => false

/-- `if (stats.id) this.processedRequests.add(stats.id)` (lines 158-160);
`Set.add` keeps insertion order and ignores an element already present. -/
def recordId (reqs : List String) (id : Option String) : List String :=
  match id with
  | some r => if r = "" then reqs else if reqs.contains r then reqs else reqs ++ [r]
  | none => reqs

/-- The accumulation into the owning period for a delayed OpenRouter
report (lines 210-216): every field is added, none is overwritten. -/
def accumDelayed (u : ModelUsageStats) (stats : UsageReport) : ModelUsageStats :=
  ⟨u.tokensIn + stats.tokens_prompt.getD 0,
   u.tokensOut + stats.tokens_completion.getD 0,
   some (u.cacheWrites.getD 0 + stats.cacheWrites.getD 0),
   some (u.cacheReads.getD 0 + stats.cacheReads.getD 0),
   u.cost + stats.total_cost.getD 0⟩

/-- The accumulation into the owning period for an immediate report
(lines 238-244). -/
def accumImmediate (u : ModelUsageStats) (stats : UsageReport) : ModelUsageStats :=
  ⟨u.tokensIn + stats.tokensIn.getD 0,
   u.tokensOut + stats.tokensOut.getD 0,
   some (u.cacheWrites.getD 0 + stats.cacheWrites.getD 0),
   some (u.cacheReads.getD 0 + stats.cacheReads.getD 0),
   u.cost + stats.cost.getD 0⟩

/-- Task-totals update for a delayed report (lines 185-196): cache
counters are only touched when present in the report. -/
def addDelayedTotals (t : ModelUsageStats) (stats : UsageReport) : ModelUsageStats :=
  ⟨t.tokensIn + stats.tokens_prompt.getD 0,
   t.tokensOut + stats.tokens_completion.getD 0,
   (match stats.cacheWrites with
    | some w => some (t.cacheWrites.getD 0 + w)
    | none => t.cacheWrites),
   (match stats.cacheReads with
    | some r => some (t.cacheReads.getD 0 + r)
    | none => t.cacheReads),
   t.cost + stats.total_cost.getD 0⟩

/-- Task-totals update for an immediate report (lines 247-255). -/
def addImmediateTotals (t : ModelUsageStats) (stats : UsageReport) : ModelUsageStats :=
  ⟨t.tokensIn + stats.tokensIn.getD 0,
   t.tokensOut + stats.tokensOut.getD 0,
   (match stats.cacheWrites with
    | some w => some (t.cacheWrites.getD 0 + w)
    | none => t.cacheWrites),
   (match stats.cacheReads with
    | some r => some (t.cacheReads.getD 0 + r)
    | none => t.cacheReads),
   t.cost + stats.cost.getD 0⟩

/-- Mutation through the reference returned by `Array.prototype.find`:
replace the first element satisfying `pred` by its image under `f`. -/
def updateFirstMatch (pred : ModelChange → Bool) (f : ModelChange → ModelChange) :
    List ModelChange → List ModelChange
  | [] => []
  | c :: rest => if pred c then f c :: rest else c :: updateFirstMatch pred f rest

/-- `updateUsageStats` (lines 151-259): dedup check and id recording,
resolution of the owning period by effective timestamp (and model suffix
for labelled reports), then the branch on `'total_cost' in stats &&
'model' in stats` choosing delayed or immediate merge arithmetic.  A
report whose resolution fails leaves periods and totals untouched. -/
def ModelTracker.updateUsageStats (tr : ModelTracker) (timestamp : Nat)
    (stats : UsageReport) : ModelTracker :=
  let requestStartTime := effectiveTs stats timestamp
  if dedupHit tr.processedRequests stats.id then tr
  else
    let reqs := recordId tr.processedRequests stats.id
    let pred := reportMatches stats requestStartTime
    let modelForRequest := tr.changes.find? pred
    if stats.total_cost.isSome && stats.model.isSome then
      match modelForRequest with
      | some _ =>
          { changes := updateFirstMatch pred
              (fun p => { p with usage := accumDelayed p.usage stats }) tr.changes,
            taskTotals := addDelayedTotals tr.taskTotals stats,
            currentGenerationStats := emptyGen,
            processedRequests := reqs }
      | none => { tr with processedRequests := reqs }
    else
      match modelForRequest with
      | some _ =>
          { changes := updateFirstMatch pred
              (fun p => { p with usage := accumImmediate p.usage stats }) tr.changes,
            taskTotals := addImmediateTotals tr.taskTotals stats,
            currentGenerationStats := tr.currentGenerationStats,
            processedRequests := reqs }
      | none => { tr with processedRequests := reqs }

/-- `getTaskTotals` (lines 264-266): a copy of the running totals. -/
def ModelTracker.getTaskTotals (tr : ModelTracker) : ModelUsageStats :=
  tr.taskTotals

/-- One step of building the `Record<string, ModelUsageStats>` of
`getModelStats`: `stats[key] = v` overwrites an existing key in place and
otherwise appends. -/
def upsert (m : List (String × ModelUsageStats)) (k : String) (v : ModelUsageStats) :
    List (String × ModelUsageStats) :=
  if m.any (fun kv => kv.1 == k) then
    m.map (fun kv => if kv.1 == k then (k, v) else kv)
  else m ++ [(k, v)]

/-- `getModelStats` (lines 272-301): for each change, in order, assign
that change's usage under its `provider/model` key. -/
def ModelTracker.getModelStats (tr : ModelTracker) : List (String × ModelUsageStats) :=
  tr.changes.foldl (fun stats change =>
    upsert stats (modelKey change)
      ⟨change.usage.tokensIn, change.usage.tokensOut,
       some (change.usage.cacheWrites.getD 0), some (change.usage.cacheReads.getD 0),
       change.usage.cost⟩) []

/-- Lines 312-327 of `addChange`: if the last change exists and its
`endTs` is falsy (absent or `0`), set `endTs = timestamp` on it. -/
def closeLastAt (timestamp : Nat) : List ModelChange → List ModelChange
  | [] => []
  | [c] => if c.endTs.getD 0 = 0 then [{ c with endTs := some timestamp }] else [c]
  | c :: c2 :: rest => c :: closeLastAt timestamp (c2 :: rest)

/-- `addChange` (lines 306-353): close the last open period, append a new
period with zeroed usage, reset `currentGenerationStats`. -/
def ModelTracker.addChange (tr : ModelTracker) (modelId modelProvider : String)
    (timestamp : Nat) : ModelTracker :=
  { tr with
      changes := closeLastAt timestamp tr.changes ++
        [⟨modelId, modelProvider, timestamp, none, zeroUsage⟩],
      currentGenerationStats := emptyGen }

/-- The `find` inside `getModelForTimestamp` (lines 360-363): the first
period containing the timestamp. -/
def ModelTracker.activePeriodAt (tr : ModelTracker) (timestamp : Nat) : Option ModelChange :=
  tr.changes.find? (fun change => belongsTo change timestamp)

/-- `getModelForTimestamp` (lines 358-373): the identity of the period
active at the timestamp, if any. -/
def ModelTracker.getModelForTimestamp (tr : ModelTracker) (timestamp : Nat) :
    Option (String × String) :=
  (tr.activePeriodAt timestamp).map (fun c => (c.modelId, c.modelProvider))

/-- The fields of `ClineMessage` (shared/ExtensionMessage) that the
conversation binder reads and writes: the timestamp and the optional
model tag set by `addMessage`. -/
structure ClineMessage where
  ts : Nat
  text : Option String := none
  modelId : Option String := none
  modelProvider : Option String := none
deriving DecidableEq, Repr

/-- The state of class `ConversationState` (lines 414-420). -/
structure ConversationState where
  modelTracker : ModelTracker
  messages : List ClineMessage
deriving DecidableEq, Repr

/-- `recordModelChange` (lines 425-427). -/
def ConversationState.recordModelChange (st : ConversationState)
    (modelId modelProvider : String) (timestamp : Nat) : ConversationState :=
  { st with modelTracker := st.modelTracker.addChange modelId modelProvider timestamp }

/-- `updateModelStats` (lines 432-449): both shapes delegate to
`updateUsageStats`. -/
def ConversationState.updateModelStats (st : ConversationState) (timestamp : Nat)
    (stats : UsageReport) : ConversationState :=
  { st with modelTracker := st.modelTracker.updateUsageStats timestamp stats }

/-- `getModelForMessage` (lines 454-456). -/
def ConversationState.getModelForMessage (st : ConversationState) (timestamp : Nat) :
    Option (String × String) :=
  st.modelTracker.getModelForTimestamp timestamp

/-- `addMessage` (lines 489-497): stamp the message with the model active
at its timestamp, if any, and append it. -/
def ConversationState.addMessage (st : ConversationState) (message : ClineMessage) :
    ConversationState :=
  let stamped :=
    match st.getModelForMessage message.ts with
    | some idPair => { message with
        modelId := some idPair.1, modelProvider := some idPair.2 }
    | none => message
  { st with messages := st.messages ++ [stamped] }

/-- A single call of the conversation driver into the ledger: a model
switch or a usage report. -/
inductive ConvOp where
  | switch (modelId modelProvider : String) (timestamp : Nat)
  | report (timestamp : Nat) (stats : UsageReport)
deriving DecidableEq, Repr

/-- Apply one driver call to a conversation. -/
def ConversationState.applyOp (st : ConversationState) : ConvOp → ConversationState
  | .switch mid mp t => st.recordModelChange mid mp t
  | .report t s => st.updateModelStats t s

/-- Apply a sequence of driver calls to a conversation, oldest first. -/
def ConversationState.applyOps (st : ConversationState) (ops : List ConvOp) :
    ConversationState :=
  ops.foldl ConversationState.applyOp st

/-- Whether an operation is either a report or a switch strictly after the
given timestamp (used to say that all switches in a batch are later than a
message's timestamp). -/
def switchAfter (ts : Nat) : ConvOp → Bool
  | .switch _ _ t => decide (ts < t)
  | .report _ _ => true

/-- Fold a sequence of `recordSwitch` calls, given as
`(modelId, modelProvider, ts)` triples, into an empty tracker. -/
def applySwitches (l : List (String × String × Nat)) : ModelTracker :=
  l.foldl (fun tr x => tr.addChange x.1 x.2.1 x.2.2) ModelTracker.new

/-- Membership of a timestamp in a period's span `[startTs, endTs)`, the
spec's notion of a period's range: an absent `endTs` means unbounded, so
for `endTs = none` the upper bound is taken as `t + 1`, which makes the
second conjunct vacuously true. -/
def inRange (p : ModelChange) (t : Nat) : Prop :=
  p.startTs ≤ t ∧ t < p.endTs.getD (t + 1)

instance (p : ModelChange) (t : Nat) : Decidable (inRange p t) :=
  inferInstanceAs (Decidable (p.startTs ≤ t ∧ t < p.endTs.getD (t + 1)))

/-- The timestamp of the first switch of a list, if any. -/
def nextTs (l : List (String × String × Nat)) : Option Nat :=
  l.head?.map (fun x => x.2.2)

/-- The period list produced by a sequence of switches: each switch opens
a period that is closed by the timestamp of the following switch; the
final period stays open. -/
def buildChanges : List (String × String × Nat) → List ModelChange
  | [] => []
  | x :: rest => ⟨x.1, x.2.1, x.2.2, nextTs rest, zeroUsage⟩ :: buildChanges rest

/-- Component-wise sum of the usage records of a per-model breakdown. -/
def sumUsage (l : List (String × ModelUsageStats)) : ModelUsageStats :=
  l.foldl (fun a kv =>
    ⟨a.tokensIn + kv.2.tokensIn,
     a.tokensOut + kv.2.tokensOut,
     some (a.cacheWrites.getD 0 + kv.2.cacheWrites.getD 0),
     some (a.cacheReads.getD 0 + kv.2.cacheReads.getD 0),
     a.cost + kv.2.cost⟩) ⟨0, 0, some 0, some 0, 0⟩

/-! Concrete inputs used by counterexamples, bug evaluations and
witnesses. -/

/-- A tracker with a single open period for `openai/gpt-4` started at 0. -/
def onePeriodTracker : ModelTracker :=
  ModelTracker.new.addChange "gpt-4" "openai" 0

/-- A tracker whose `openai/gpt-4` period `[0, 10)` is closed and whose
`anthropic/claude-3` period is open since 10. -/
def twoPeriodTracker : ModelTracker :=
  (ModelTracker.new.addChange "gpt-4" "openai" 0).addChange "claude-3" "anthropic" 10

/-- A delayed OpenRouter report for `gpt-4` whose self-reported request
start time is the (falsy) timestamp `0`. -/
def zeroTsReport : UsageReport :=
  { id := some "r1", model := some "gpt-4", total_cost := some 1,
    tokens_prompt := some 7, tokens_completion := some 3, timestamp := some 0 }

/-- The same delayed report with the nonzero request start time `5`. -/
def fiveTsReport : UsageReport :=
  { zeroTsReport with timestamp := some 5 }

/-- `onePeriodTracker` after an immediate report of 100 input tokens. -/
def preloadedTracker : ModelTracker :=
  onePeriodTracker.updateUsageStats 5 { tokensIn := some 100 }

/-- A delayed final report for `gpt-4` repeating the 100 input tokens the
immediate estimate already accumulated. -/
def finalReport : UsageReport :=
  { id := some "r1", model := some "gpt-4", total_cost := some 1,
    tokens_prompt := some 100, tokens_completion := some 50, timestamp := some 5 }

/-- An immediate report carrying the empty string as request id. -/
def emptyIdReport : UsageReport := { id := some "", tokensIn := some 1 }

/-- An immediate report carrying a non-empty request id. -/
def realIdReport : UsageReport := { id := some "r9", tokensIn := some 1 }

/-- An id-less immediate report. -/
def idlessReport : UsageReport := { tokensIn := some 3, tokensOut := some 2, cost := some 2 }

/-- A delayed report whose model label `mistral` matches no period of
`onePeriodTracker`. -/
def mismatchReport : UsageReport :=
  { id := some "r2", model := some "mistral", total_cost := some 1,
    tokens_prompt := some 7, timestamp := some 0 }

/-- A timeline in which `openai/gpt-4` occurs in two non-adjacent periods
(usage 100 and 30 input tokens) around an `anthropic/claude-3` period
(usage 50), built through the public switch/report interface only. -/
def recurringTracker : ModelTracker :=
  ((((onePeriodTracker.updateUsageStats 5
      { tokensIn := some 100 }).addChange "claude-3" "anthropic" 10).updateUsageStats 15
      { tokensIn := some 50 }).addChange "gpt-4" "openai" 20).updateUsageStats 25
      { tokensIn := some 30 }

/-- A two-switch sequence with strictly increasing timestamps. -/
def c6input : List (String × String × Nat) :=
  [("gpt-4", "openai", 1), ("claude-3", "anthropic", 3)]

/-! ### Helper lemmas about `find?`, `updateFirstMatch` and the branch
structure of `updateUsageStats`. -/

theorem find?_eq_some_of_first {α : Type} (p : α → Bool) :
    ∀ (l : List α) (i : Nat) (x : α), l[i]? = some x → p x = true →
      (∀ j y, j < i → l[j]? = some y → p y = false) → l.find? p = some x
  | [], i, x, hx, _, _ => by simp at hx
  | a :: t, 0, x, hx, hpx, _ => by
      simp at hx
      subst hx
      simp [List.find?_cons, hpx]
  | a :: t, i + 1, x, hx, hpx, hfirst => by
      have ha : p a = false := hfirst 0 a (Nat.succ_pos i) (by simp)
      have ih := find?_eq_some_of_first p t i x (by simpa using hx) hpx
        (fun j y hj hy => hfirst (j + 1) y (Nat.succ_lt_succ hj) (by simpa using hy))
      simp [List.find?_cons, ha, ih]

theorem updateFirstMatch_getElem? (pred : ModelChange → Bool) (f : ModelChange → ModelChange) :
    ∀ (l : List ModelChange) (i : Nat) (x : ModelChange), l[i]? = some x → pred x = true →
      (∀ j y, j < i → l[j]? = some y → pred y = false) →
      ∀ k, (updateFirstMatch pred f l)[k]? = if k = i then some (f x) else l[k]?
  | [], i, x, hx, _, _ => by simp at hx
  | a :: t, 0, x, hx, hpx, _ => by
      intro k
      simp at hx
      subst hx
      cases k with
      | zero => simp [updateFirstMatch, hpx]
      | succ k => simp [updateFirstMatch, hpx]
  | a :: t, i + 1, x, hx, hpx, hfirst => by
      intro k
      have ha : pred a = false := hfirst 0 a (Nat.succ_pos i) (by simp)
      have ih := updateFirstMatch_getElem? pred f t i x (by simpa using hx) hpx
        (fun j y hj hy => hfirst (j + 1) y (Nat.succ_lt_succ hj) (by simpa using hy))
      cases k with
      | zero => simp [updateFirstMatch, ha]
      | succ k =>
          have h2 := ih k
          by_cases hk : k = i
          · subst hk
            simp [updateFirstMatch, ha, h2]
          · have hk2 : ¬(k + 1 = i + 1) := fun h => hk (Nat.succ_injective h)
            simp only [updateFirstMatch, ha, Bool.false_eq_true, if_false,
              List.getElem?_cons_succ, h2, if_neg hk, if_neg hk2]

theorem reportMatches_imp_belongsTo (stats : UsageReport) (t : Nat) (c : ModelChange)
    (h : reportMatches stats t c = true) : belongsTo c t = true := by
  unfold reportMatches at h
  cases hm : stats.model with
  | none => simpa [hm] using h
  | some m =>
      rw [hm] at h
      have h2 : (if m = "" then belongsTo c t
          else belongsTo c t && strEndsWith (modelKey c) m) = true := h
      by_cases he : m = ""
      · simpa [he] using h2
      · rw [if_neg he, Bool.and_eq_true] at h2
        exact h2.1

theorem updateUsageStats_hit (tr : ModelTracker) (ts : Nat) (stats : UsageReport)
    (h : dedupHit tr.processedRequests stats.id = true) :
    tr.updateUsageStats ts stats = tr := by
  unfold ModelTracker.updateUsageStats
  simp [h]

theorem updateUsageStats_noMatch (tr : ModelTracker) (ts : Nat) (stats : UsageReport)
    (hd : dedupHit tr.processedRequests stats.id = false)
    (hf : tr.changes.find? (reportMatches stats (effectiveTs stats ts)) = none) :
    tr.updateUsageStats ts stats =
      { tr with processedRequests := recordId tr.processedRequests stats.id } := by
  unfold ModelTracker.updateUsageStats
  simp only [hd, Bool.false_eq_true, if_false, hf]
  split <;> rfl

theorem updateUsageStats_delayed (tr : ModelTracker) (ts : Nat) (stats : UsageReport)
    (c : ModelChange)
    (hd : dedupHit tr.processedRequests stats.id = false)
    (hshape : (stats.total_cost.isSome && stats.model.isSome) = true)
    (hf : tr.changes.find? (reportMatches stats (effectiveTs stats ts)) = some c) :
    tr.updateUsageStats ts stats =
      { changes := updateFirstMatch (reportMatches stats (effectiveTs stats ts))
          (fun p => { p with usage := accumDelayed p.usage stats }) tr.changes,
        taskTotals := addDelayedTotals tr.taskTotals stats,
        currentGenerationStats := emptyGen,
        processedRequests := recordId tr.processedRequests stats.id } := by
  unfold ModelTracker.updateUsageStats
  simp [hd, hf, hshape]

theorem updateUsageStats_immediate (tr : ModelTracker) (ts : Nat) (stats : UsageReport)
    (c : ModelChange)
    (hd : dedupHit tr.processedRequests stats.id = false)
    (hshape : (stats.total_cost.isSome && stats.model.isSome) = false)
    (hf : tr.changes.find? (reportMatches stats (effectiveTs stats ts)) = some c) :
    tr.updateUsageStats ts stats =
      { changes := updateFirstMatch (reportMatches stats (effectiveTs stats ts))
          (fun p => { p with usage := accumImmediate p.usage stats }) tr.changes,
        taskTotals := addImmediateTotals tr.taskTotals stats,
        currentGenerationStats := tr.currentGenerationStats,
        processedRequests := recordId tr.processedRequests stats.id } := by
  unfold ModelTracker.updateUsageStats
  simp [hd, hf, hshape]

theorem closeLastAt_length : ∀ (l : List ModelChange) (t : Nat),
    (closeLastAt t l).length = l.length
  | [], _ => rfl
  | [c], t => by by_cases h : c.endTs.getD 0 = 0 <;> simp [closeLastAt, h]
  | c :: c2 :: rest, t => by
      have ih := closeLastAt_length (c2 :: rest) t
      simp only [closeLastAt, List.length_cons, ih]

theorem closeLastAt_getElem?_lt : ∀ (l : List ModelChange) (t i : Nat),
    i + 1 < l.length → (closeLastAt t l)[i]? = l[i]?
  | [], _, _, h => by simp at h
  | [c], _, _, h => by simp at h
  | c :: c2 :: rest, t, 0, _ => by simp [closeLastAt]
  | c :: c2 :: rest, t, i + 1, h => by
      have ih := closeLastAt_getElem?_lt (c2 :: rest) t i (by simpa using h)
      simpa [closeLastAt] using ih

theorem closeLastAt_last_open : ∀ (l : List ModelChange) (t : Nat) (p : ModelChange),
    l[l.length - 1]? = some p → p.endTs = none →
    (closeLastAt t l)[l.length - 1]? = some { p with endTs := some t }
  | [], _, p, hp, _ => by simp at hp
  | [c], t, p, hp, hop => by
      simp at hp
      subst hp
      simp [closeLastAt, hop]
  | c :: c2 :: rest, t, p, hp, hop => by
      have ih := closeLastAt_last_open (c2 :: rest) t p (by simpa using hp) hop
      simpa [closeLastAt] using ih

theorem updateUsageStats_processedRequests (tr : ModelTracker) (ts : Nat)
    (stats : UsageReport) (hd : dedupHit tr.processedRequests stats.id = false) :
    (tr.updateUsageStats ts stats).processedRequests
      = recordId tr.processedRequests stats.id := by
  unfold ModelTracker.updateUsageStats
  simp only [hd, Bool.false_eq_true, if_false]
  split <;> split <;> rfl

theorem contains_recordId (reqs : List String) (r : String) (hr : r ≠ "") :
    (recordId reqs (some r)).contains r = true := by
  simp only [recordId, if_neg hr]
  split
  · next h => exact h
  · next h => simp [List.contains_eq_any_beq, List.any_append]

/-! ### Claim C3 -/

/-- C3 counterexample: the empty string is a carried `requestId` that the
dedup logic never records (it is falsy in `if (stats.id)`), so applying the
same empty-id report twice doubles the totals instead of being a no-op. -/
theorem c3_counterexample :
    emptyIdReport.id = some "" ∧
    ((onePeriodTracker.updateUsageStats 5 emptyIdReport).updateUsageStats
        5 emptyIdReport).taskTotals.tokensIn = 2 ∧
    (onePeriodTracker.updateUsageStats 5 emptyIdReport).taskTotals.tokensIn = 1 ∧
    ((onePeriodTracker.updateUsageStats 5 emptyIdReport).updateUsageStats
        5 emptyIdReport).taskTotals
      ≠ (onePeriodTracker.updateUsageStats 5 emptyIdReport).taskTotals := by
  refine ⟨rfl, by decide, by decide, by decide⟩

/-- C3 (corrected, restricted to non-empty request ids): applying a report
carrying a non-empty `requestId` a second time is a complete no-op — the
whole tracker state, in particular its periods and task totals, is exactly
the state after the first application. -/
theorem c3_dedup_idempotent (tr : ModelTracker) (ts ts2 : Nat) (stats : UsageReport)
    (r : String) (hid : stats.id = some r) (hr : r ≠ "") :
    (tr.updateUsageStats ts stats).updateUsageStats ts2 stats
      = tr.updateUsageStats ts stats := by
  have hmem : (tr.updateUsageStats ts stats).processedRequests.contains r = true := by
    cases hd : dedupHit tr.processedRequests stats.id with
    | true =>
        rw [updateUsageStats_hit tr ts stats hd]
        rw [hid] at hd
        simp only [dedupHit, if_neg hr] at hd
        exact hd
    | false =>
        rw [updateUsageStats_processedRequests tr ts stats hd, hid]
        exact contains_recordId tr.processedRequests r hr
  have hhit : dedupHit (tr.updateUsageStats ts stats).processedRequests stats.id = true := by
    rw [hid]
    simp only [dedupHit, if_neg hr]
    exact hmem
  exact updateUsageStats_hit _ ts2 stats hhit

/-- C3 witness: a fresh id "r9" applied twice equals one application. -/
theorem c3_dedup_idempotent_witness :
    (onePeriodTracker.updateUsageStats 5 realIdReport).updateUsageStats 9 realIdReport
      = onePeriodTracker.updateUsageStats 5 realIdReport :=
  c3_dedup_idempotent onePeriodTracker 5 9 realIdReport "r9" rfl (by decide)

/-! ### Claims C4 and C5 -/

/-- C4 (code bug): `openai/gpt-4` occurs in two non-adjacent periods with
100 and 30 input tokens, but `getModelStats` reports 30 under its key —
the last period's usage, not the 130-token sum the claim (and the
method's own documentation) promises, because `stats[key] = ...`
overwrites instead of accumulating. -/
theorem c4_perModel_overwrites :
    recurringTracker.changes.map (fun c => (modelKey c, c.usage.tokensIn))
      = [("openai/gpt-4", 100), ("anthropic/claude-3", 50), ("openai/gpt-4", 30)] ∧
    (recurringTracker.getModelStats.find? (fun kv => kv.1 == "openai/gpt-4")).map
        (fun kv => kv.2.tokensIn) = some 30 ∧
    ¬ (recurringTracker.getModelStats.find? (fun kv => kv.1 == "openai/gpt-4")).map
        (fun kv => kv.2.tokensIn) = some 130 := by
  refine ⟨by decide, by decide, by decide⟩

/-- C5 (code bug): after a switch/immediate-report sequence in which a
model identity recurs, the component-wise sum of `getModelStats` (80 input
tokens) no longer equals `getTaskTotals` (180 input tokens); the recurring
period's earlier usage is dropped from the breakdown by the overwrite in
`getModelStats`. -/
theorem c5_sum_perModel_ne_totals :
    (sumUsage recurringTracker.getModelStats).tokensIn = 80 ∧
    recurringTracker.getTaskTotals.tokensIn = 180 ∧
    (sumUsage recurringTracker.getModelStats).tokensIn
      ≠ recurringTracker.getTaskTotals.tokensIn := by
  refine ⟨by decide, by decide, by decide⟩

/-! ### Claim C7 -/

/-- C7: `addChange` closes the last period when (and only as the claim
states: when it is open) by setting its `endTs` to the switch timestamp,
appends a fresh period with the given identity, `startTs = ts`, no
`endTs`, and all-zero usage, and preserves every earlier period at its
index — for every identity, including one equal to the previous period's,
so the period count always grows by one and no coalescing occurs. -/
theorem c7_recordSwitch (tr : ModelTracker) (mid mp : String) (t : Nat) :
    (tr.addChange mid mp t).changes.length = tr.changes.length + 1 ∧
    (tr.addChange mid mp t).changes[tr.changes.length]?
      = some ⟨mid, mp, t, none, zeroUsage⟩ ∧
    (∀ i, i + 1 < tr.changes.length →
      (tr.addChange mid mp t).changes[i]? = tr.changes[i]?) ∧
    (∀ p, tr.changes[tr.changes.length - 1]? = some p → p.endTs = none →
      (tr.addChange mid mp t).changes[tr.changes.length - 1]?
        = some { p with endTs := some t }) := by
  refine ⟨?_, ?_, ?_, ?_⟩
  · simp [ModelTracker.addChange, closeLastAt_length]
  · show (closeLastAt t tr.changes ++ [(⟨mid, mp, t, none, zeroUsage⟩ : ModelChange)])[tr.changes.length]? = _
    rw [← closeLastAt_length tr.changes t, List.getElem?_concat_length]
  · intro i hi
    show (closeLastAt t tr.changes ++ [(⟨mid, mp, t, none, zeroUsage⟩ : ModelChange)])[i]? = _
    rw [List.getElem?_append_left (by rw [closeLastAt_length]; omega)]
    exact closeLastAt_getElem?_lt tr.changes t i hi
  · intro p hp hop
    have hne : tr.changes ≠ [] := by
      intro h
      rw [h] at hp
      simp at hp
    have hlt : tr.changes.length - 1 < tr.changes.length := by
      cases h : tr.changes with
      | nil => exact absurd h hne
      | cons a l => simp
    show (closeLastAt t tr.changes ++ [(⟨mid, mp, t, none, zeroUsage⟩ : ModelChange)])[tr.changes.length - 1]? = _
    rw [List.getElem?_append_left (by rw [closeLastAt_length]; omega)]
    exact closeLastAt_last_open tr.changes t p hp hop

/-- C7 witness: switching to the same `openai/gpt-4` identity again still
closes the open period at 5 and appends a fresh zero-usage period. -/
theorem c7_recordSwitch_witness :
    (onePeriodTracker.addChange "gpt-4" "openai" 5).changes.length = 2 ∧
    (onePeriodTracker.addChange "gpt-4" "openai" 5).changes[1]?
      = some ⟨"gpt-4", "openai", 5, none, zeroUsage⟩ ∧
    (onePeriodTracker.addChange "gpt-4" "openai" 5).changes[0]?
      = some ⟨"gpt-4", "openai", 0, some 5, zeroUsage⟩ := by
  have h := c7_recordSwitch onePeriodTracker "gpt-4" "openai" 5
  refine ⟨h.1, h.2.1, ?_⟩
  have h4 := h.2.2.2 ⟨"gpt-4", "openai", 0, none, zeroUsage⟩ (by decide) rfl
  exact h4

/-! ### Claim C2 -/

/-- C2 counterexample: the delayed final report repeats the 100 input
tokens already accumulated by the immediate estimate; the claim predicts
an overwrite of the period snapshot to 100 and a zero delta on totals, but
the code re-adds the full value, giving 200 in both places. -/
theorem c2_counterexample :
    ((preloadedTracker.updateUsageStats 7 finalReport).changes[0]?).map
        (fun c => c.usage.tokensIn) = some 200 ∧
    (preloadedTracker.updateUsageStats 7 finalReport).taskTotals.tokensIn = 200 ∧
    ¬ ((preloadedTracker.updateUsageStats 7 finalReport).changes[0]?).map
        (fun c => c.usage.tokensIn) = some 100 ∧
    ¬ (preloadedTracker.updateUsageStats 7 finalReport).taskTotals.tokensIn = 100 := by
  refine ⟨by decide, by decide, by decide, by decide⟩

/-- C2 (corrected): the reconciler never overwrites and never adds a
delta — whatever the report's shape, the resolved period's snapshot and
the task totals are updated by plain accumulation.  For a delayed/final
report (`total_cost` and `model` both present) the owning period's usage
and the totals both gain the full final values; for any other report they
gain the immediate figures; periods other than the owning one are
untouched. -/
theorem c2_delayed_accumulates (tr : ModelTracker) (ts : Nat) (stats : UsageReport)
    (i : Nat) (p : ModelChange)
    (hd : dedupHit tr.processedRequests stats.id = false)
    (hp : tr.changes[i]? = some p)
    (hm : reportMatches stats (effectiveTs stats ts) p = true)
    (hfirst : ∀ j q, j < i → tr.changes[j]? = some q →
      reportMatches stats (effectiveTs stats ts) q = false) :
    ((stats.total_cost.isSome && stats.model.isSome) = true →
      (tr.updateUsageStats ts stats).changes[i]?
          = some { p with usage := accumDelayed p.usage stats } ∧
      (tr.updateUsageStats ts stats).taskTotals = addDelayedTotals tr.taskTotals stats) ∧
    ((stats.total_cost.isSome && stats.model.isSome) = false →
      (tr.updateUsageStats ts stats).changes[i]?
          = some { p with usage := accumImmediate p.usage stats } ∧
      (tr.updateUsageStats ts stats).taskTotals = addImmediateTotals tr.taskTotals stats) ∧
    (∀ j, j ≠ i → (tr.updateUsageStats ts stats).changes[j]? = tr.changes[j]?) := by
  have hf : tr.changes.find? (reportMatches stats (effectiveTs stats ts)) = some p :=
    find?_eq_some_of_first _ tr.changes i p hp hm hfirst
  refine ⟨?_, ?_, ?_⟩
  · intro hshape
    rw [updateUsageStats_delayed tr ts stats p hd hshape hf]
    refine ⟨?_, rfl⟩
    rw [updateFirstMatch_getElem? _ _ tr.changes i p hp hm hfirst i, if_pos rfl]
  · intro hshape
    rw [updateUsageStats_immediate tr ts stats p hd hshape hf]
    refine ⟨?_, rfl⟩
    rw [updateFirstMatch_getElem? _ _ tr.changes i p hp hm hfirst i, if_pos rfl]
  · intro j hj
    cases hshape : (stats.total_cost.isSome && stats.model.isSome) with
    | true =>
        rw [updateUsageStats_delayed tr ts stats p hd hshape hf]
        show (updateFirstMatch _ _ tr.changes)[j]? = _
        rw [updateFirstMatch_getElem? _ _ tr.changes i p hp hm hfirst j, if_neg hj]
    | false =>
        rw [updateUsageStats_immediate tr ts stats p hd hshape hf]
        show (updateFirstMatch _ _ tr.changes)[j]? = _
        rw [updateFirstMatch_getElem? _ _ tr.changes i p hp hm hfirst j, if_neg hj]

/-- C2 witness: the delayed final report accumulates onto the 100-token
immediate estimate, yielding 200 tokens in the period snapshot and in the
task totals. -/
theorem c2_delayed_accumulates_witness :
    ((preloadedTracker.updateUsageStats 7 finalReport).changes[0]?).map
        (fun c => c.usage.tokensIn) = some 200 ∧
    ((preloadedTracker.updateUsageStats 7 finalReport).changes[0]?).map
        (fun c => c.usage.tokensOut) = some 50 ∧
    (preloadedTracker.updateUsageStats 7 finalReport).taskTotals.tokensIn = 200 := by
  have h := (c2_delayed_accumulates preloadedTracker 7 finalReport 0
      ⟨"gpt-4", "openai", 0, none,
        accumImmediate zeroUsage { tokensIn := some 100 }⟩ (by decide) rfl
      (by decide) (fun j q hj _ => absurd hj (Nat.not_lt_zero j))).1 (by decide)
  refine ⟨?_, ?_, ?_⟩
  · rw [h.1]
    decide
  · rw [h.1]
    decide
  · rw [h.2]
    decide

/-! ### Claim C1 -/

/-- C1 counterexample: a delayed report carrying `reportTs = 0` — a
timestamp that falls inside the earlier, closed `openai/gpt-4` period
`[0, 10)` whose identity suffix-matches the report's label — is not merged
into that period: `0` is falsy, so the code resolves with the arrival
timestamp 20 instead, fails the label check against the active
`anthropic/claude-3` period, and drops the report. -/
theorem c1_counterexample :
    zeroTsReport.timestamp = some 0 ∧
    (twoPeriodTracker.changes[0]?).map
        (fun c => (c.endTs, belongsTo c 0, strEndsWith (modelKey c) "gpt-4"))
      = some (some 10, true, true) ∧
    ((twoPeriodTracker.updateUsageStats 20 zeroTsReport).changes[0]?).map
        (fun c => c.usage) = some zeroUsage ∧
    ¬ ((twoPeriodTracker.updateUsageStats 20 zeroTsReport).changes[0]?).map
        (fun c => c.usage.tokensIn) = some 7 := by
  refine ⟨rfl, by decide, by decide, by decide⟩

/-- C1 (corrected, restricted to nonzero `reportTs`): a delayed report
carrying a nonzero `reportTs` is resolved with that timestamp — the
arrival timestamp of the call is irrelevant to the result — and when the
`reportTs` falls inside an earlier, already-closed period that the label
suffix-matches (and no earlier period matches), the figures are merged
into exactly that period; every other period, in particular the currently
active one, keeps its usage. -/
theorem c1_uses_reportTs (tr : ModelTracker) (ts : Nat) (stats : UsageReport)
    (m : String) (rts i : Nat) (p : ModelChange) (e : Nat)
    (hm : stats.model = some m) (hmne : m ≠ "")
    (hc : stats.total_cost.isSome = true)
    (hts : stats.timestamp = some rts) (hrts : rts ≠ 0)
    (hd : dedupHit tr.processedRequests stats.id = false)
    (hp : tr.changes[i]? = some p)
    (hclosed : p.endTs = some e)
    (hmatch : reportMatches stats rts p = true)
    (hfirst : ∀ j q, j < i → tr.changes[j]? = some q →
      reportMatches stats rts q = false) :
    (∀ ts1 ts2, tr.updateUsageStats ts1 stats = tr.updateUsageStats ts2 stats) ∧
    (tr.updateUsageStats ts stats).changes[i]?
        = some { p with usage := accumDelayed p.usage stats } ∧
    (∀ j, j ≠ i → (tr.updateUsageStats ts stats).changes[j]? = tr.changes[j]?) ∧
    (tr.updateUsageStats ts stats).taskTotals = addDelayedTotals tr.taskTotals stats := by
  have heff : ∀ u, effectiveTs stats u = rts := by
    intro u
    simp [effectiveTs, hts, hrts]
  have hshape : (stats.total_cost.isSome && stats.model.isSome) = true := by
    rw [hm, hc]
    rfl
  have hmatch2 : reportMatches stats (effectiveTs stats ts) p = true := by
    rw [heff ts]
    exact hmatch
  have hfirst2 : ∀ j q, j < i → tr.changes[j]? = some q →
      reportMatches stats (effectiveTs stats ts) q = false := by
    intro j q hj hq
    rw [heff ts]
    exact hfirst j q hj hq
  have hf : tr.changes.find? (reportMatches stats (effectiveTs stats ts)) = some p :=
    find?_eq_some_of_first _ tr.changes i p hp hmatch2 hfirst2
  refine ⟨?_, ?_, ?_, ?_⟩
  · intro ts1 ts2
    unfold ModelTracker.updateUsageStats
    rw [heff ts1, heff ts2]
  · rw [updateUsageStats_delayed tr ts stats p hd hshape hf]
    show (updateFirstMatch _ _ tr.changes)[i]? = _
    rw [updateFirstMatch_getElem? _ _ tr.changes i p hp hmatch2 hfirst2 i, if_pos rfl]
  · intro j hj
    rw [updateUsageStats_delayed tr ts stats p hd hshape hf]
    show (updateFirstMatch _ _ tr.changes)[j]? = _
    rw [updateFirstMatch_getElem? _ _ tr.changes i p hp hmatch2 hfirst2 j, if_neg hj]
  · rw [updateUsageStats_delayed tr ts stats p hd hshape hf]

/-- C1 witness: the same delayed report with `reportTs = 5` lands in the
closed `openai/gpt-4` period `[0, 10)`, leaves the active period alone,
and the arrival timestamp (20 vs 999) makes no difference. -/
theorem c1_uses_reportTs_witness :
    ((twoPeriodTracker.updateUsageStats 20 fiveTsReport).changes[0]?).map
        (fun c => (c.usage.tokensIn, c.usage.tokensOut)) = some (7, 3) ∧
    (twoPeriodTracker.updateUsageStats 20 fiveTsReport).changes[1]?
      = twoPeriodTracker.changes[1]? ∧
    twoPeriodTracker.updateUsageStats 20 fiveTsReport
      = twoPeriodTracker.updateUsageStats 999 fiveTsReport := by
  have h := c1_uses_reportTs twoPeriodTracker 20 fiveTsReport "gpt-4" 5 0
      ⟨"gpt-4", "openai", 0, some 10, zeroUsage⟩ 10 rfl (by decide) rfl rfl (by decide)
      (by decide) (by decide) rfl (by decide)
      (fun j q hj _ => absurd hj (Nat.not_lt_zero j))
  refine ⟨?_, h.2.2.1 1 (by decide), h.1 20 999⟩
  rw [h.2.1]
  decide

/-! ### Claim C8 -/

/-- C8: a report that resolves to no period (empty timeline or timestamp
outside every period), and a delayed report whose truthy model label fails
the suffix match against the period resolved for its effective timestamp
(no other period covering that timestamp), leave every period and the task
totals exactly unchanged — the report is dropped, and since the embedding
is a total function, nothing is thrown. -/
theorem c8_orphan_dropped (tr : ModelTracker) (ts : Nat) (stats : UsageReport)
    (h : tr.activePeriodAt (effectiveTs stats ts) = none ∨
      (stats.total_cost.isSome = true ∧ ∃ m p, stats.model = some m ∧ m ≠ "" ∧
        tr.activePeriodAt (effectiveTs stats ts) = some p ∧
        strEndsWith (modelKey p) m = false ∧
        (∀ q ∈ tr.changes, belongsTo q (effectiveTs stats ts) = true → q = p))) :
    (tr.updateUsageStats ts stats).changes = tr.changes ∧
    (tr.updateUsageStats ts stats).taskTotals = tr.taskTotals := by
  cases hd : dedupHit tr.processedRequests stats.id with
  | true =>
      rw [updateUsageStats_hit tr ts stats hd]
      exact ⟨rfl, rfl⟩
  | false =>
      have hf : tr.changes.find? (reportMatches stats (effectiveTs stats ts)) = none := by
        rw [List.find?_eq_none]
        intro q hq hpq
        rcases h with horph | ⟨_, m, p, hm, hmne, hap, hsuf, huniq⟩
        · have hnone := List.find?_eq_none.mp horph q hq
          exact hnone (reportMatches_imp_belongsTo _ _ _ hpq)
        · have hbel := reportMatches_imp_belongsTo _ _ _ hpq
          have hqp := huniq q hq hbel
          subst hqp
          rw [reportMatches, hm] at hpq
          have hpq2 : (if m = "" then belongsTo q (effectiveTs stats ts)
              else belongsTo q (effectiveTs stats ts)
                && strEndsWith (modelKey q) m) = true := hpq
          rw [if_neg hmne, Bool.and_eq_true] at hpq2
          rw [hsuf] at hpq2
          exact Bool.false_ne_true hpq2.2
      rw [updateUsageStats_noMatch tr ts stats hd hf]
      exact ⟨rfl, rfl⟩

/-- C8 witness: a delayed report whose label `mistral` matches no period —
in particular not the period resolved for its effective timestamp — leaves
the tracker's periods and totals unchanged. -/
theorem c8_orphan_dropped_witness :
    (onePeriodTracker.updateUsageStats 5 mismatchReport).changes
      = onePeriodTracker.changes ∧
    (onePeriodTracker.updateUsageStats 5 mismatchReport).taskTotals
      = onePeriodTracker.taskTotals :=
  c8_orphan_dropped onePeriodTracker 5 mismatchReport
    (Or.inr ⟨by decide, "mistral", ⟨"gpt-4", "openai", 0, none, zeroUsage⟩, rfl,
      by decide, by decide, by decide, by decide⟩)

/-! ### Claim C10 -/

/-- C10: a report with no request id never touches the dedup set, so an
id-less immediate report applied twice accumulates its token and cost
figures twice into the owning period's snapshot and into the task
totals. -/
theorem c10_idless_double_count (tr : ModelTracker) (ts : Nat) (stats : UsageReport)
    (i : Nat) (p : ModelChange)
    (hid : stats.id = none) (hm : stats.model = none) (hc : stats.total_cost = none)
    (hp : tr.changes[i]? = some p)
    (hbel : belongsTo p (effectiveTs stats ts) = true)
    (hfirst : ∀ j q, j < i → tr.changes[j]? = some q →
      belongsTo q (effectiveTs stats ts) = false) :
    (tr.updateUsageStats ts stats).processedRequests = tr.processedRequests ∧
    ((tr.updateUsageStats ts stats).updateUsageStats ts stats).processedRequests
      = tr.processedRequests ∧
    (((tr.updateUsageStats ts stats).updateUsageStats ts stats).changes[i]?).map
        (fun c => c.usage.tokensIn) = some (p.usage.tokensIn + 2 * stats.tokensIn.getD 0) ∧
    (((tr.updateUsageStats ts stats).updateUsageStats ts stats).changes[i]?).map
        (fun c => c.usage.tokensOut) = some (p.usage.tokensOut + 2 * stats.tokensOut.getD 0) ∧
    (((tr.updateUsageStats ts stats).updateUsageStats ts stats).changes[i]?).map
        (fun c => c.usage.cost) = some (p.usage.cost + 2 * stats.cost.getD 0) ∧
    ((tr.updateUsageStats ts stats).updateUsageStats ts stats).taskTotals.tokensIn
      = tr.taskTotals.tokensIn + 2 * stats.tokensIn.getD 0 ∧
    ((tr.updateUsageStats ts stats).updateUsageStats ts stats).taskTotals.tokensOut
      = tr.taskTotals.tokensOut + 2 * stats.tokensOut.getD 0 ∧
    ((tr.updateUsageStats ts stats).updateUsageStats ts stats).taskTotals.cost
      = tr.taskTotals.cost + 2 * stats.cost.getD 0 := by
  have hpredEq : reportMatches stats (effectiveTs stats ts)
      = fun c => belongsTo c (effectiveTs stats ts) := by
    funext c
    rw [reportMatches, hm]
  have hd1 : dedupHit tr.processedRequests stats.id = false := by
    rw [hid, dedupHit]
  have hshape : (stats.total_cost.isSome && stats.model.isSome) = false := by
    rw [hc]
    rfl
  have hm1 : reportMatches stats (effectiveTs stats ts) p = true := by
    rw [hpredEq]
    exact hbel
  have hfirst1 : ∀ j q, j < i → tr.changes[j]? = some q →
      reportMatches stats (effectiveTs stats ts) q = false := by
    intro j q hj hq
    rw [hpredEq]
    exact hfirst j q hj hq
  have hf1 : tr.changes.find? (reportMatches stats (effectiveTs stats ts)) = some p :=
    find?_eq_some_of_first _ tr.changes i p hp hm1 hfirst1
  have e1 := updateUsageStats_immediate tr ts stats p hd1 hshape hf1
  -- the once-updated tracker
  have hreq1 : (tr.updateUsageStats ts stats).processedRequests = tr.processedRequests := by
    rw [e1, hid]
    rfl
  set p1 : ModelChange := { p with usage := accumImmediate p.usage stats } with hp1def
  have hch1 : ∀ k, (tr.updateUsageStats ts stats).changes[k]?
      = if k = i then some p1 else tr.changes[k]? := by
    intro k
    rw [e1]
    exact updateFirstMatch_getElem? _ _ tr.changes i p hp hm1 hfirst1 k
  have hbel1 : belongsTo p1 (effectiveTs stats ts) = true := hbel
  have hm2 : reportMatches stats (effectiveTs stats ts) p1 = true := by
    rw [hpredEq]
    exact hbel1
  have hfirst2 : ∀ j q, j < i → (tr.updateUsageStats ts stats).changes[j]? = some q →
      reportMatches stats (effectiveTs stats ts) q = false := by
    intro j q hj hq
    rw [hch1 j, if_neg (Nat.ne_of_lt hj)] at hq
    exact hfirst1 j q hj hq
  have hp2 : (tr.updateUsageStats ts stats).changes[i]? = some p1 := by
    rw [hch1 i, if_pos rfl]
  have hd2 : dedupHit (tr.updateUsageStats ts stats).processedRequests stats.id = false := by
    rw [hid, dedupHit]
  have hf2 : (tr.updateUsageStats ts stats).changes.find?
      (reportMatches stats (effectiveTs stats ts)) = some p1 :=
    find?_eq_some_of_first _ _ i p1 hp2 hm2 hfirst2
  have e2 := updateUsageStats_immediate (tr.updateUsageStats ts stats) ts stats p1 hd2 hshape hf2
  have hch2 : ((tr.updateUsageStats ts stats).updateUsageStats ts stats).changes[i]?
      = some { p1 with usage := accumImmediate p1.usage stats } := by
    rw [e2]
    show (updateFirstMatch _ _ _)[i]? = _
    rw [updateFirstMatch_getElem? _ _ _ i p1 hp2 hm2 hfirst2 i, if_pos rfl]
  have htot2 : ((tr.updateUsageStats ts stats).updateUsageStats ts stats).taskTotals
      = addImmediateTotals (addImmediateTotals tr.taskTotals stats) stats := by
    rw [e2, e1]
  refine ⟨hreq1, ?_, ?_, ?_, ?_, ?_, ?_, ?_⟩
  · rw [e2, hid]
    show (tr.updateUsageStats ts stats).processedRequests = _
    exact hreq1
  · rw [hch2]
    show some (p.usage.tokensIn + stats.tokensIn.getD 0 + stats.tokensIn.getD 0) = _
    congr 1
    omega
  · rw [hch2]
    show some (p.usage.tokensOut + stats.tokensOut.getD 0 + stats.tokensOut.getD 0) = _
    congr 1
    omega
  · rw [hch2]
    show some (p.usage.cost + stats.cost.getD 0 + stats.cost.getD 0) = _
    congr 1
    ring
  · rw [htot2]
    show tr.taskTotals.tokensIn + stats.tokensIn.getD 0 + stats.tokensIn.getD 0 = _
    omega
  · rw [htot2]
    show tr.taskTotals.tokensOut + stats.tokensOut.getD 0 + stats.tokensOut.getD 0 = _
    omega
  · rw [htot2]
    show tr.taskTotals.cost + stats.cost.getD 0 + stats.cost.getD 0 = _
    ring

/-- C10 witness: the id-less report of 3 input tokens and 2 output tokens
applied twice yields 6 and 4 while the dedup set stays empty. -/
theorem c10_idless_double_count_witness :
    ((onePeriodTracker.updateUsageStats 5 idlessReport).updateUsageStats
        5 idlessReport).processedRequests = [] ∧
    (((onePeriodTracker.updateUsageStats 5 idlessReport).updateUsageStats
        5 idlessReport).changes[0]?).map (fun c => c.usage.tokensIn) = some 6 ∧
    ((onePeriodTracker.updateUsageStats 5 idlessReport).updateUsageStats
        5 idlessReport).taskTotals.tokensOut = 4 := by
  have h := c10_idless_double_count onePeriodTracker 5 idlessReport 0
      ⟨"gpt-4", "openai", 0, none, zeroUsage⟩ rfl rfl rfl (by decide) (by decide)
      (fun j q hj _ => absurd hj (Nat.not_lt_zero j))
  refine ⟨h.2.1, ?_, ?_⟩
  · rw [h.2.2.1]
    decide
  · rw [h.2.2.2.2.2.2.1]
    decide

/-! ### Claim C6: timeline machinery -/

theorem buildChanges_length : ∀ (l : List (String × String × Nat)),
    (buildChanges l).length = l.length
  | [] => rfl
  | x :: rest => by simp [buildChanges, buildChanges_length rest]

theorem nextTs_append (l : List (String × String × Nat)) (x : String × String × Nat)
    (h : l ≠ []) : nextTs (l ++ [x]) = nextTs l := by
  cases l with
  | nil => exact absurd rfl h
  | cons a rest => simp [nextTs]

theorem buildChanges_snoc : ∀ (l : List (String × String × Nat))
    (x : String × String × Nat),
    buildChanges (l ++ [x])
      = closeLastAt x.2.2 (buildChanges l) ++ [⟨x.1, x.2.1, x.2.2, none, zeroUsage⟩]
  | [], x => by simp [buildChanges, closeLastAt, nextTs]
  | [a], x => by
      simp [buildChanges, closeLastAt, nextTs]
  | a :: b :: rest, x => by
      have ih := buildChanges_snoc (b :: rest) x
      show buildChanges (a :: ((b :: rest) ++ [x])) = _
      rw [buildChanges, ih, nextTs_append (b :: rest) x (by simp)]
      rw [buildChanges, buildChanges]
      rfl

theorem applySwitches_changes (l : List (String × String × Nat)) :
    (applySwitches l).changes = buildChanges l := by
  induction l using List.reverseRecOn with
  | nil => rfl
  | append_singleton l x ih =>
      show (List.foldl _ ModelTracker.new (l ++ [x])).changes = _
      rw [List.foldl_append]
      show ((applySwitches l).addChange x.1 x.2.1 x.2.2).changes = _
      rw [buildChanges_snoc]
      simp [ModelTracker.addChange, ih]

theorem buildChanges_getElem? : ∀ (l : List (String × String × Nat)) (i : Nat),
    (buildChanges l)[i]? = (l[i]?).map (fun x =>
      (⟨x.1, x.2.1, x.2.2, (l[i + 1]?).map (fun y => y.2.2), zeroUsage⟩ : ModelChange))
  | [], i => by simp [buildChanges]
  | x :: rest, 0 => by
      simp [buildChanges, nextTs, List.head?_eq_getElem?]
  | x :: rest, i + 1 => by
      simpa [buildChanges] using buildChanges_getElem? rest i

/-- C6: a sequence of `recordSwitch` calls with strictly increasing
timestamps, applied to an empty tracker, produces one period per switch
with pairwise disjoint `[startTs, endTs)` ranges; the open (`endTs`-less)
period is exactly the last one; `activePeriodAt` returns the unique
covering period for every timestamp inside some period's range and none
for timestamps before the first period's start. -/
theorem c6_timeline_invariants (l : List (String × String × Nat))
    (hne : l ≠ [])
    (hmono : List.Pairwise (fun a b => a.2.2 < b.2.2) l) :
    (applySwitches l).changes.length = l.length ∧
    (∀ (i j : Nat) (p q : ModelChange) (t : Nat), i ≠ j →
      (applySwitches l).changes[i]? = some p →
      (applySwitches l).changes[j]? = some q → inRange p t → ¬ inRange q t) ∧
    (∀ (i : Nat) (p : ModelChange), (applySwitches l).changes[i]? = some p →
      (p.endTs = none ↔ i = l.length - 1)) ∧
    (∃ p : ModelChange, (applySwitches l).changes[l.length - 1]? = some p ∧
      p.endTs = none) ∧
    (∀ (t i : Nat) (p : ModelChange), (applySwitches l).changes[i]? = some p →
      inRange p t → (applySwitches l).activePeriodAt t = some p) ∧
    (∀ (t : Nat) (p0 : ModelChange), (applySwitches l).changes[0]? = some p0 →
      t < p0.startTs → (applySwitches l).activePeriodAt t = none) := by
  have hch : (applySwitches l).changes = buildChanges l := applySwitches_changes l
  have hmo : ∀ (i j : Nat) (x y : String × String × Nat), i < j →
      l[i]? = some x → l[j]? = some y → x.2.2 < y.2.2 := by
    intro i j x y hij hx hy
    rcases List.getElem?_eq_some.mp hx with ⟨hi, hxe⟩
    rcases List.getElem?_eq_some.mp hy with ⟨hj, hye⟩
    have hp := List.pairwise_iff_get.mp hmono ⟨i, hi⟩ ⟨j, hj⟩ (Fin.mk_lt_mk.mpr hij)
    rw [List.get_eq_getElem, List.get_eq_getElem, hxe, hye] at hp
    exact hp
  have hmole : ∀ (i j : Nat) (x y : String × String × Nat), i ≤ j →
      l[i]? = some x → l[j]? = some y → x.2.2 ≤ y.2.2 := by
    intro i j x y hij hx hy
    rcases Nat.lt_or_ge i j with h | h
    · exact Nat.le_of_lt (hmo i j x y h hx hy)
    · have : i = j := Nat.le_antisymm hij h
      subst this
      rw [hx] at hy
      cases hy
      exact Nat.le_refl _
  -- structure of the i-th period
  have hper : ∀ (i : Nat) (p : ModelChange), (applySwitches l).changes[i]? = some p →
      ∃ x, l[i]? = some x ∧ p.modelId = x.1 ∧ p.modelProvider = x.2.1 ∧
        p.startTs = x.2.2 ∧ p.endTs = (l[i + 1]?).map (fun y => y.2.2) ∧
        p.usage = zeroUsage := by
    intro i p hp
    rw [hch, buildChanges_getElem? l i] at hp
    cases hx : l[i]? with
    | none => rw [hx] at hp; cases hp
    | some x =>
        rw [hx] at hp
        cases hp
        exact ⟨x, rfl, rfl, rfl, rfl, rfl, rfl⟩
  -- a period never starts before an earlier period's start
  have hdisj : ∀ (i j : Nat) (p q : ModelChange) (t : Nat), i < j →
      (applySwitches l).changes[i]? = some p →
      (applySwitches l).changes[j]? = some q → inRange p t → ¬ inRange q t := by
    intro i j p q t hij hp hq hpin hqin
    rcases hper i p hp with ⟨x, hx, _, _, hxs, hxe, _⟩
    rcases hper j q hq with ⟨y, hy, _, _, hys, _, _⟩
    -- the (i+1)-th switch exists because i + 1 ≤ j < length
    have hjlt : j < l.length := (List.getElem?_eq_some.mp hy).1
    have hi1 : i + 1 < l.length := Nat.lt_of_le_of_lt (Nat.succ_le_of_lt hij) hjlt
    cases hz : l[i + 1]? with
    | none => exact absurd (List.getElem?_eq_none_iff.mp hz) (Nat.not_le_of_lt hi1)
    | some z =>
        have hze : p.endTs = some z.2.2 := by rw [hxe, hz]; rfl
        have h1 : t < z.2.2 := by
          have := hpin.2
          rw [hze] at this
          simpa using this
        have h2 : z.2.2 ≤ y.2.2 := hmole (i + 1) j z y (Nat.succ_le_of_lt hij) hz hy
        have h3 : y.2.2 ≤ t := by
          have := hqin.1
          rw [hys] at this
          exact this
        omega
  refine ⟨by rw [hch, buildChanges_length], ?_, ?_, ?_, ?_, ?_⟩
  · -- pairwise disjointness, both orders
    intro i j p q t hij hp hq hpin hqin
    rcases Nat.lt_or_ge i j with h | h
    · exact hdisj i j p q t h hp hq hpin hqin
    · have h2 : j < i := Nat.lt_of_le_of_ne h (fun he => hij he.symm)
      exact hdisj j i q p t h2 hq hp hqin hpin
  · -- the unique open period is the last
    intro i p hp
    rcases hper i p hp with ⟨x, hx, _, _, _, hxe, _⟩
    have hilt : i < l.length := (List.getElem?_eq_some.mp hx).1
    rw [hxe]
    rw [Option.map_eq_none']
    rw [List.getElem?_eq_none_iff]
    omega
  · -- the last period exists and is open
    have hlt : l.length - 1 < l.length := by
      cases l with
      | nil => exact absurd rfl hne
      | cons a rest => simp
    cases hx : l[l.length - 1]? with
    | none => exact absurd (List.getElem?_eq_none_iff.mp hx) (Nat.not_le_of_lt hlt)
    | some x =>
        refine ⟨⟨x.1, x.2.1, x.2.2, (l[l.length - 1 + 1]?).map (fun y => y.2.2),
          zeroUsage⟩, ?_, ?_⟩
        · rw [hch, buildChanges_getElem? l (l.length - 1), hx]
          rfl
        · show (l[l.length - 1 + 1]?).map (fun y => y.2.2) = none
          rw [Option.map_eq_none', List.getElem?_eq_none_iff]
          omega
  · -- activePeriodAt finds the covering period
    intro t i p hp hpin
    rcases hper i p hp with ⟨x, hx, _, _, hxs, hxe, _⟩
    have hbel : belongsTo p t = true := by
      rw [belongsTo]
      have h1 : p.startTs ≤ t := hpin.1
      cases he : p.endTs with
      | none => simp [h1]
      | some e =>
          have h2 : t < e := by
            have := hpin.2
            rw [he] at this
            simpa using this
          simp [h1, h2]
    have hfail : ∀ (j : Nat) (q : ModelChange), j < i →
        (applySwitches l).changes[j]? = some q →
        belongsTo q t = false := by
      intro j q hji hq
      rcases hper j q hq with ⟨y, hy, _, _, hys, hye, _⟩
      have hilt : i < l.length := (List.getElem?_eq_some.mp hx).1
      have hj1 : j + 1 ≤ i := Nat.succ_le_of_lt hji
      have hj1lt : j + 1 < l.length := Nat.lt_of_le_of_lt hj1 hilt
      cases hz : l[j + 1]? with
      | none => exact absurd (List.getElem?_eq_none_iff.mp hz) (Nat.not_le_of_lt hj1lt)
      | some z =>
          have hze : q.endTs = some z.2.2 := by rw [hye, hz]; rfl
          have hz0 : y.2.2 < z.2.2 := hmo j (j + 1) y z (Nat.lt_succ_self j) hy hz
          have hzx : z.2.2 ≤ x.2.2 := hmole (j + 1) i z x hj1 hz hx
          have hxt : x.2.2 ≤ t := by rw [← hxs]; exact hpin.1
          rw [belongsTo, hze]
          have hzne : ¬ (z.2.2 = 0) := by omega
          have hznt : ¬ (t < z.2.2) := by omega
          by_cases hyt : q.startTs ≤ t
          · simp [hyt, hzne, hznt]
          · simp [hyt]
    rw [ModelTracker.activePeriodAt]
    exact find?_eq_some_of_first _ _ i p hp hbel hfail
  · -- timestamps before the first start match nothing
    intro t p0 hp0 ht
    rcases hper 0 p0 hp0 with ⟨x0, hx0, _, _, hx0s, _, _⟩
    rw [ModelTracker.activePeriodAt, List.find?_eq_none]
    intro q hq hbel
    rcases List.getElem?_eq_some.mp
      ((List.mem_iff_getElem?).mp hq).choose_spec with ⟨hjl, hje⟩
    rcases (List.mem_iff_getElem?).mp hq with ⟨j, hj⟩
    rcases hper j q hj with ⟨y, hy, _, _, hys, _, _⟩
    have h0y : x0.2.2 ≤ y.2.2 := hmole 0 j x0 y (Nat.zero_le j) hx0 hy
    have hqs : q.startTs ≤ t := by
      rw [belongsTo, Bool.and_eq_true] at hbel
      simpa using hbel.1
    rw [hys] at hqs
    rw [hx0s] at ht
    omega

/-- C6 witness: for the two-switch input, the timestamp 2 is resolved to
the closed first period and the timestamp 0, before the first start, to
none. -/
theorem c6_timeline_invariants_witness :
    (applySwitches c6input).activePeriodAt 2
      = some ⟨"gpt-4", "openai", 1, some 3, zeroUsage⟩ ∧
    (applySwitches c6input).activePeriodAt 0 = none := by
  have h := c6_timeline_invariants c6input (by decide) (by decide)
  exact ⟨h.2.2.2.2.1 2 0 ⟨"gpt-4", "openai", 1, some 3, zeroUsage⟩ (by decide) (by decide),
    h.2.2.2.2.2 0 ⟨"gpt-4", "openai", 1, some 3, zeroUsage⟩ (by decide) (by decide)⟩

/-! ### Claim C9: the binder and stability of timestamp lookups -/

theorem find?_map_updateFirstMatch (pred : ModelChange → Bool)
    (f : ModelChange → ModelChange)
    (hf : ∀ c, (f c).modelId = c.modelId ∧ (f c).modelProvider = c.modelProvider ∧
      (f c).startTs = c.startTs ∧ (f c).endTs = c.endTs) (t : Nat) :
    ∀ l : List ModelChange,
      ((updateFirstMatch pred f l).find? (fun c => belongsTo c t)).map
        (fun c => (c.modelId, c.modelProvider))
      = (l.find? (fun c => belongsTo c t)).map (fun c => (c.modelId, c.modelProvider))
  | [] => rfl
  | c :: rest => by
      have hbel : belongsTo (f c) t = belongsTo c t := by
        rw [belongsTo, belongsTo, (hf c).2.2.1, (hf c).2.2.2]
      by_cases hp : pred c = true
      · simp only [updateFirstMatch, if_pos hp]
        rw [List.find?_cons, List.find?_cons, hbel]
        cases hb : belongsTo c t with
        | true => simp [(hf c).1, (hf c).2.1]
        | false => rfl
      · simp only [updateFirstMatch, if_neg hp]
        rw [List.find?_cons, List.find?_cons]
        cases hb : belongsTo c t with
        | true => rfl
        | false => exact find?_map_updateFirstMatch pred f hf t rest

theorem getModelForTimestamp_updateUsageStats (tr : ModelTracker) (ts2 : Nat)
    (stats : UsageReport) (t : Nat) :
    (tr.updateUsageStats ts2 stats).getModelForTimestamp t
      = tr.getModelForTimestamp t := by
  cases hd : dedupHit tr.processedRequests stats.id with
  | true => rw [updateUsageStats_hit tr ts2 stats hd]
  | false =>
      cases hfind : tr.changes.find? (reportMatches stats (effectiveTs stats ts2)) with
      | none =>
          rw [updateUsageStats_noMatch tr ts2 stats hd hfind]
          rfl
      | some c =>
          cases hshape : (stats.total_cost.isSome && stats.model.isSome) with
          | true =>
              rw [updateUsageStats_delayed tr ts2 stats c hd hshape hfind]
              show ((updateFirstMatch _ _ tr.changes).find?
                  (fun c => belongsTo c t)).map (fun c => (c.modelId, c.modelProvider)) = _
              exact find?_map_updateFirstMatch
                (reportMatches stats (effectiveTs stats ts2))
                (fun p => { p with usage := accumDelayed p.usage stats })
                (fun c => ⟨rfl, rfl, rfl, rfl⟩) t tr.changes
          | false =>
              rw [updateUsageStats_immediate tr ts2 stats c hd hshape hfind]
              show ((updateFirstMatch _ _ tr.changes).find?
                  (fun c => belongsTo c t)).map (fun c => (c.modelId, c.modelProvider)) = _
              exact find?_map_updateFirstMatch
                (reportMatches stats (effectiveTs stats ts2))
                (fun p => { p with usage := accumImmediate p.usage stats })
                (fun c => ⟨rfl, rfl, rfl, rfl⟩) t tr.changes

theorem find?_map_closeLast_snoc (t2 t : Nat) (ht : t < t2) (newc : ModelChange)
    (hnew : newc.startTs = t2) :
    ∀ l : List ModelChange,
      ((closeLastAt t2 l ++ [newc]).find? (fun c => belongsTo c t)).map
        (fun c => (c.modelId, c.modelProvider))
      = (l.find? (fun c => belongsTo c t)).map (fun c => (c.modelId, c.modelProvider))
  | [] => by
      have hb : belongsTo newc t = false := by
        rw [belongsTo, hnew]
        have : ¬ (t2 ≤ t) := Nat.not_le_of_lt ht
        simp [this]
      simp [closeLastAt, List.find?_cons, hb]
  | [c] => by
      have hb : belongsTo newc t = false := by
        rw [belongsTo, hnew]
        have : ¬ (t2 ≤ t) := Nat.not_le_of_lt ht
        simp [this]
      by_cases h0 : c.endTs.getD 0 = 0
      · have hbc : belongsTo { c with endTs := some t2 } t = belongsTo c t := by
          rw [belongsTo, belongsTo]
          show (decide (c.startTs ≤ t) && (decide (t2 = 0) || decide (t < t2))) = _
          cases he : c.endTs with
          | none => simp [ht]
          | some e =>
              have he0 : e = 0 := by
                rw [he] at h0
                simpa using h0
              subst he0
              simp [ht]
        simp only [closeLastAt, if_pos h0, List.cons_append, List.nil_append,
          List.find?_cons, hbc]
        cases hbcv : belongsTo c t with
        | true => rfl
        | false => simp [List.find?_cons, hb]
      · simp only [closeLastAt, if_neg h0, List.cons_append, List.nil_append,
          List.find?_cons]
        cases hbcv : belongsTo c t with
        | true => rfl
        | false => simp [List.find?_cons, hb]
  | c :: c2 :: rest => by
      have ih := find?_map_closeLast_snoc t2 t ht newc hnew (c2 :: rest)
      simp only [closeLastAt, List.cons_append, List.find?_cons]
      cases hbcv : belongsTo c t with
      | true => rfl
      | false => exact ih

theorem getModelForTimestamp_addChange (tr : ModelTracker) (mid mp : String)
    (t2 t : Nat) (ht : t < t2) :
    (tr.addChange mid mp t2).getModelForTimestamp t = tr.getModelForTimestamp t := by
  show ((closeLastAt t2 tr.changes
        ++ [(⟨mid, mp, t2, none, zeroUsage⟩ : ModelChange)]).find?
      (fun c => belongsTo c t)).map
      (fun c : ModelChange => (c.modelId, c.modelProvider)) = _
  exact find?_map_closeLast_snoc t2 t ht ⟨mid, mp, t2, none, zeroUsage⟩ rfl tr.changes

theorem getModelForTimestamp_applyOps :
    ∀ (ops : List ConvOp) (st : ConversationState) (t : Nat),
      (∀ op ∈ ops, switchAfter t op = true) →
      (st.applyOps ops).modelTracker.getModelForTimestamp t
        = st.modelTracker.getModelForTimestamp t
  | [], _, _, _ => rfl
  | op :: rest, st, t, hops => by
      have hrest := getModelForTimestamp_applyOps rest (st.applyOp op) t
        (fun o ho => hops o (List.mem_cons_of_mem op ho))
      show ((st.applyOp op).applyOps rest).modelTracker.getModelForTimestamp t = _
      rw [hrest]
      cases op with
      | switch mid mp t2 =>
          have h2 : t < t2 := by
            have := hops (ConvOp.switch mid mp t2) (List.mem_cons_self _ _)
            rw [switchAfter] at this
            exact of_decide_eq_true this
          exact getModelForTimestamp_addChange st.modelTracker mid mp t2 t h2
      | report ts2 stats =>
          exact getModelForTimestamp_updateUsageStats st.modelTracker ts2 stats t

/-- C9: after any batch of driver calls whose switches all carry
timestamps later than the message's, the model lookup for the message's
timestamp is unchanged, and `addMessage` appends the message stamped with
exactly that period's identity when one is found, or unmodified when none
is — a message inside period P gets P's identity even after later switches
and later report applications. -/
theorem c9_binder_stamps (st : ConversationState) (msg : ClineMessage)
    (ops : List ConvOp)
    (hops : ∀ op ∈ ops, switchAfter msg.ts op = true) :
    ((st.applyOps ops).modelTracker.getModelForTimestamp msg.ts
      = st.modelTracker.getModelForTimestamp msg.ts) ∧
    (∀ mid mp, st.modelTracker.getModelForTimestamp msg.ts = some (mid, mp) →
      ((st.applyOps ops).addMessage msg).messages
        = (st.applyOps ops).messages
            ++ [{ msg with modelId := some mid, modelProvider := some mp }]) ∧
    (st.modelTracker.getModelForTimestamp msg.ts = none →
      ((st.applyOps ops).addMessage msg).messages
        = (st.applyOps ops).messages ++ [msg]) := by
  have hstab := getModelForTimestamp_applyOps ops st msg.ts hops
  refine ⟨hstab, ?_, ?_⟩
  · intro mid mp hsome
    rw [ConversationState.addMessage]
    show (st.applyOps ops).messages ++
        [match (st.applyOps ops).getModelForMessage msg.ts with
         | some idPair => { msg with
             modelId := some idPair.1, modelProvider := some idPair.2 }
         | none => msg] = _
    rw [ConversationState.getModelForMessage, hstab, hsome]
  · intro hnone
    rw [ConversationState.addMessage]
    show (st.applyOps ops).messages ++
        [match (st.applyOps ops).getModelForMessage msg.ts with
         | some idPair => { msg with
             modelId := some idPair.1, modelProvider := some idPair.2 }
         | none => msg] = _
    rw [ConversationState.getModelForMessage, hstab, hnone]

/-- C9 witness: a message at timestamp 5, bound after a later switch (at
10) and a later report (at 12), is stamped with the `openai/gpt-4`
identity of the period that covered timestamp 5. -/
theorem c9_binder_stamps_witness :
    (((⟨onePeriodTracker, []⟩ : ConversationState).applyOps
        [ConvOp.switch "claude-3" "anthropic" 10,
         ConvOp.report 12 idlessReport]).addMessage ⟨5, none, none, none⟩).messages
      = ((⟨onePeriodTracker, []⟩ : ConversationState).applyOps
          [ConvOp.switch "claude-3" "anthropic" 10,
           ConvOp.report 12 idlessReport]).messages
        ++ [⟨5, none, some "gpt-4", some "openai"⟩] := by
  have h := c9_binder_stamps ⟨onePeriodTracker, []⟩ ⟨5, none, none, none⟩
      [ConvOp.switch "claude-3" "anthropic" 10, ConvOp.report 12 idlessReport]
      (by decide)
  exact h.2.1 "gpt-4" "openai" (by decide)

end ClineArchitect
